import Mathlib

/-!
Verification of the SQL-assistant core: shallow embedding of the query
validator, the security guardrails, the retry orchestrator, the evaluation
runner and the model-comparison aggregator, together with proofs of the
specified properties.

Python strings are embedded as `List Char`; the helper functions below model
the exact Python `str` operations the source uses (`strip`, `upper`,
`startswith`, `in`, `split`, `count`, `rstrip`).
-/

/-- Characters of a string literal, the embedding of a Python `str` value. -/
def chars (s : String) : List Char := s.toList

/-- Python whitespace (`str.strip` default set and `re` `\s` for ASCII). -/
def isPyWS (c : Char) : Bool :=
  c == ' ' || c == '\t' || c == '\n' || c == '\r' || c == '\x0b' || c == '\x0c'

/-- `beginsWith pat s` is Python `s.startswith(pat)`. -/
def beginsWith : List Char → List Char → Bool
  | [], _ => true
  | _ :: _, [] => false
  | p :: ps, c :: cs => p == c && beginsWith ps cs

/-- `isSubstring pat s` is Python `pat in s`. -/
def isSubstring (pat : List Char) : List Char → Bool
  | [] => beginsWith pat []
  | c :: rest => beginsWith pat (c :: rest) || isSubstring pat rest

/-- Remove trailing characters satisfying `p` (used for `strip` / `rstrip`). -/
def dropEndWhile (p : Char → Bool) (l : List Char) : List Char :=
  (l.reverse.dropWhile p).reverse

/-- Python `str.strip()`. -/
def pyStrip (l : List Char) : List Char :=
  dropEndWhile isPyWS (l.dropWhile isPyWS)

/-- Python `str.upper()` (ASCII, the domain of the SQL keyword checks). -/
def upperChars (l : List Char) : List Char := l.map Char.toUpper

/-- Python `str.lower()` (ASCII). -/
def lowerChars (l : List Char) : List Char := l.map Char.toLower

/-- Python `s.split(sep)` for a one-character separator: keeps empty pieces. -/
def splitOn (sep : Char) : List Char → List (List Char)
  | [] => [[]]
  | c :: rest =>
    if c == sep then [] :: splitOn sep rest
    else
      match splitOn sep rest with
      | [] => [[c]]
      | h :: t => (c :: h) :: t

/-- Python `sep.join(pieces)`. -/
def joinWith (sep : List Char) : List (List Char) → List Char
  | [] => []
  | h :: t => h ++ (t.map (fun x => sep ++ x)).flatten

/-! ## src/sql/validator.py -/

/-- `DANGEROUS_KEYWORDS` of `src/sql/validator.py`. -/
def DANGEROUS_KEYWORDS : List (List Char) :=
  [chars "DROP", chars "DELETE", chars "TRUNCATE", chars "ALTER",
   chars "INSERT", chars "UPDATE", chars "CREATE", chars "MODIFY"]

/-- `is_select_query` of `src/sql/validator.py`:
`query.strip().upper().startswith('SELECT')`. -/
def is_select_query (query : List Char) : Bool :=
  beginsWith (chars "SELECT") (upperChars (pyStrip query))

/-- `check_dangerous_keywords` of `src/sql/validator.py`: the first deny-listed
keyword occurring in the upper-cased query, if any. -/
def check_dangerous_keywords (query : List Char) : Bool × Option (List Char) :=
  match DANGEROUS_KEYWORDS.find? (fun kw => isSubstring kw (upperChars query)) with
  | some kw =>
    (false, some (chars "Query contains potentially dangerous keyword: " ++ kw))
  | none => (true, none)

/-- `validate_sql_syntax` of `src/sql/validator.py`. -/
def validate_sql_syntax (query : List Char) : Bool × Option (List Char) :=
  if query = [] then (false, some (chars "Query is empty"))
  else if query.count '(' ≠ query.count ')' then
    (false, some (chars "Unmatched parentheses"))
  else if query.count '\'' % 2 ≠ 0 then
    (false, some (chars "Unmatched single quotes"))
  else (true, none)

/-- `validate_query` of `src/sql/validator.py`.  The `Option` results of the
inner checks are materialised with `getD []`; in the code those messages are
always set on the failing branches. -/
def validate_query (query : List Char) ( allow_unsafe : Bool) : Bool × List Char :=
  if query = [] then (false, chars "Query is empty")
  else if !(is_select_query query) then
    (false, chars "Only SELECT queries are supported")
  else if ! allow_unsafe && !(check_dangerous_keywords query).1 then
    (false, (check_dangerous_keywords query).2.getD [])
  else if !( validate_sql_syntax query).1 then
    (false, ( validate_sql_syntax query).2.getD [])
  else (true, chars "Query is valid")

/-! ## src/security/sql_guardrails.py -/

/-- The six entries of `SQLGuardrails.DISALLOWED_PATTERNS`, as an enumeration;
each constructor is one regular expression of the Python list. -/
inductive Pat
  | semiDrop
  | semiDelete
  | semiTruncate
  | unionSelect
  | lineComment
  | blockComment
deriving DecidableEq

/-- The regex source text of each disallowed pattern, exactly as written in
`src/security/sql_guardrails.py` (raw Python strings). -/
def patSource : Pat → List Char
  | .semiDrop => chars ";\\s*DROP"
  | .semiDelete => chars ";\\s*DELETE"
  | .semiTruncate => chars ";\\s*TRUNCATE"
  | .unionSelect => chars "UNION.*SELECT"
  | .lineComment => chars "--.*\\n"
  | .blockComment => chars "/\\*.*\\*/"

/-- `re.search(r';\s*KW', q, re.IGNORECASE)`: a `;` followed by optional
whitespace and the (upper-case) keyword `kw`. -/
def scanSemiKw (kw : List Char) : List Char → Bool
  | [] => false
  | c :: rest =>
    (c == ';' && beginsWith kw (upperChars (rest.dropWhile isPyWS)))
    || scanSemiKw kw rest

/-- `re.search(r'UNION.*SELECT', q, re.IGNORECASE)`: `UNION` followed, on the
same line (`.` does not match a newline), by `SELECT`. -/
def scanUnionSelect : List Char → Bool
  | [] => false
  | c :: rest =>
    (beginsWith (chars "UNION") (upperChars (c :: rest))
      && isSubstring (chars "SELECT")
           (upperChars ((rest.drop 4).takeWhile (fun d => d ≠ '\n'))))
    || scanUnionSelect rest

/-- `re.search(r'--.*\n', q)`: a `--` with a newline somewhere after it (the
`.*` part cannot cross a newline, so the `\n` matched is the next one). -/
def scanDashComment : List Char → Bool
  | [] => false
  | c :: rest =>
    (c == '-' && (match rest with
      | '-' :: r2 => r2.contains '\n'
      | _ => false))
    || scanDashComment rest

/-- `re.search(r'/\*.*\*/', q)`: `/*` closed by `*/` on the same line
(no `re.DOTALL` in `check_query_safety`). -/
def scanBlockComment : List Char → Bool
  | [] => false
  | c :: rest =>
    (c == '/' && (match rest with
      | '*' :: r2 => isSubstring (chars "*/") (r2.takeWhile (fun d => d ≠ '\n'))
      | _ => false))
    || scanBlockComment rest

/-- Whether a disallowed pattern matches the query (`re.search`, IGNORECASE). -/
def patMatch : Pat → List Char → Bool
  | .semiDrop, q => scanSemiKw (chars "DROP") q
  | .semiDelete, q => scanSemiKw (chars "DELETE") q
  | .semiTruncate, q => scanSemiKw (chars "TRUNCATE") q
  | .unionSelect, q => scanUnionSelect q
  | .lineComment, q => scanDashComment q
  | .blockComment, q => scanBlockComment q

/-- `SQLGuardrails.DISALLOWED_PATTERNS`, in source order. -/
def DISALLOWED_PATTERNS : List Pat :=
  [.semiDrop, .semiDelete, .semiTruncate, .unionSelect, .lineComment, .blockComment]

/-- `SQLGuardrails.check_query_safety`: first matching disallowed pattern, then
the multiple-statement check on the `';'`-split pieces. -/
def check_query_safety (query : List Char) : Bool × Option (List Char) :=
  match DISALLOWED_PATTERNS.find? (fun p => patMatch p query) with
  | some p =>
    (false, some (chars "Query contains disallowed pattern: " ++ patSource p))
  | none =>
    let statements := ((splitOn ';' query).map pyStrip).filter (fun s => s ≠ [])
    if 1 < statements.length then
      (false, some (chars "Multiple SQL statements are not allowed"))
    else (true, none)

/-- `re.sub(r'--.*$', '', q, flags=re.MULTILINE)`: on each line, delete from the
first `--` to the end of the line (the newline itself is kept).  Fuel-indexed
structural recursion; the fuel is the length of the list, which bounds the
number of steps. -/
def removeLineCommentsF : Nat → List Char → List Char
  | _, [] => []
  | 0, l => l
  | f + 1, c :: rest =>
    if c = '-' ∧ rest.head? = some '-' then
      removeLineCommentsF f ((rest.drop 1).dropWhile (fun d => d ≠ '\n'))
    else c :: removeLineCommentsF f rest

def removeLineComments (l : List Char) : List Char :=
  removeLineCommentsF l.length l

/-- The suffix after the first `*/`, if one occurs. -/
def dropAfterClose : List Char → Option (List Char)
  | [] => none
  | '*' :: '/' :: rest => some rest
  | _ :: rest => dropAfterClose rest

/-- `re.sub(r'/\*.*?\*/', '', q, flags=re.DOTALL)`: delete each `/*` block up
to the nearest following `*/`; an unclosed `/*` is left in place. -/
def removeBlockCommentsF : Nat → List Char → List Char
  | _, [] => []
  | 0, l => l
  | f + 1, c :: rest =>
    if c = '/' ∧ rest.head? = some '*' then
      match dropAfterClose (rest.drop 1) with
      | some r2 => removeBlockCommentsF f r2
      | none => c :: removeBlockCommentsF f rest
    else c :: removeBlockCommentsF f rest

def removeBlockComments (l : List Char) : List Char :=
  removeBlockCommentsF l.length l

/-- Python `q.rstrip(';')`: remove every trailing `';'`. -/
def rstripSemis (l : List Char) : List Char :=
  (l.reverse.dropWhile (fun c => c == ';')).reverse

/-- `SQLGuardrails.sanitize_query`: strip line comments, strip block comments,
strip trailing semicolons, strip surrounding whitespace. -/
def sanitize_query (query : List Char) : List Char :=
  pyStrip (rstripSemis (removeBlockComments (removeLineComments query)))

/-! ## src/app.py -/

/-- The backward scan of `clean_sql_from_response`: starting from index `e`,
step left while the index is above `s` and the line at the index is blank. -/
def bwdSkip (lines : List (List Char)) (s : Nat) : Nat → Nat
  | 0 => 0
  | e + 1 =>
    if s < e + 1 && pyStrip (lines.getD (e + 1) []) == [] then bwdSkip lines s e
    else e + 1

/-- `clean_sql_from_response` of `src/app.py`: strip, and if the text starts
with a markdown fence, drop the fence line, the leading and trailing blank
interior lines and the closing-fence line, then strip again. -/
def clean_sql_from_response (response : List Char) : List Char :=
  let sql := pyStrip response
  if beginsWith (chars "```") sql then
    let lines := splitOn '\n' sql
    let start_idx := 1 + ((lines.drop 1).takeWhile (fun s => pyStrip s == [])).length
    let end_idx := bwdSkip lines start_idx (lines.length - 1)
    if start_idx < end_idx then
      pyStrip (joinWith (chars "\n") ((lines.drop start_idx).take (end_idx - start_idx)))
    else pyStrip sql
  else pyStrip sql

/-- The retry loop of `attempt_sql_generation` (`src/app.py`).  The external
generator is a function from the attempt number to either an exception text or
a `(prompt, response)` pair; the second component of the result counts how many
times the generator was called.  The `Nat` argument is the number of attempts
remaining (`rem + 1` remaining means `attempt < max_retries` iff `rem ≠ 0`). -/
def attemptGo (gen : Nat → Except (List Char) (List Char × List Char))
    (attempt : Nat) : Nat → (List Char × List Char × Bool) × Nat
  | 0 => ((chars "", chars "Failed to generate valid SQL after all retries", false), 0)
  | rem + 1 =>
    match gen attempt with
    | .error e =>
      if rem = 0 then ((chars "", e, false), 1)
      else
        let x := attemptGo gen (attempt + 1) rem
        (x.1, x.2 + 1)
    | .ok pr =>
      let generated_sql := clean_sql_from_response pr.2
      let v := validate_query generated_sql false
      if !v.1 then
        if rem = 0 then ((generated_sql, v.2, false), 1)
        else
          let x := attemptGo gen (attempt + 1) rem
          (x.1, x.2 + 1)
      else
        let s := check_query_safety generated_sql
        if !s.1 then
          if rem = 0 then ((generated_sql, s.2.getD [], false), 1)
          else
            let x := attemptGo gen (attempt + 1) rem
            (x.1, x.2 + 1)
        else ((generated_sql, pr.1, true), 1)

/-- `attempt_sql_generation` of `src/app.py`: result `(sql, message, success)`
paired with the number of generator calls made. -/
def attempt_sql_generation (gen : Nat → Except (List Char) (List Char × List Char))
    (max_retries : Nat) : (List Char × List Char × Bool) × Nat :=
  attemptGo gen 1 max_retries

/-! ## evaluation.metrics (metric computations)

`src/evaluation/metrics.py` contains only dataset I/O; the metric functions
imported by `src/evaluation/run_eval.py` and `src/evaluation/examples.py`
(`calculate_exact_match`, `calculate_token_match`, `calculate_bleu_score`,
`calculate_f1_score`, `calculate_semantic_similarity`, `calculate_all_metrics`,
`calculate_composite_score`, `calculate_sql_correctness`) are not in the
sources, so they are modelled from spec §4.4. -/

/-- Split into maximal runs of characters rejected by `p`, dropping empty
pieces; fuel-indexed (fuel = input length suffices). -/
def splitDropF (p : Char → Bool) : Nat → List Char → List (List Char)
  | _, [] => []
  | 0, _ => []
  | f + 1, c :: rest =>
    if p c then splitDropF p f rest
    else (c :: rest.takeWhile (fun d => !p d)) :: splitDropF p f (rest.dropWhile (fun d => !p d))

/-- Modelled from the spec: tokens of a query, lower-cased and split on
whitespace/punctuation (maximal alphanumeric runs), spec §4.4. -/
def tokenize (s : List Char) : List (List Char) :=
  splitDropF (fun c => !c.isAlphanum) s.length (lowerChars s)

/-- Modelled from the spec: case-insensitive whitespace normalization used by
`exact_match` (lower-case, collapse whitespace runs, trim), spec §4.4. -/
def normWS (s : List Char) : List Char :=
  joinWith (chars " ") (splitDropF isPyWS s.length (lowerChars s))

/-- Jaccard similarity of two token sets. -/
def jaccardTokens (A B : List (List Char)) : ℚ :=
  if (A.toFinset ∪ B.toFinset).card = 0 then 0
  else ((A.toFinset ∩ B.toFinset).card : ℚ) / ((A.toFinset ∪ B.toFinset).card : ℚ)

/-- Modelled from the spec: `exact_match`, 1.0 iff the normalized strings are
identical (missing `calculate_exact_match` of `evaluation.metrics`). -/
def calculate_exact_match (g e : List Char) : ℚ :=
  if normWS g = normWS e then 1 else 0

/-- Modelled from the spec: `token_match`, Jaccard over token sets (missing
`calculate_token_match` of `evaluation.metrics`). -/
def calculate_token_match (g e : List Char) : ℚ :=
  jaccardTokens (tokenize g) (tokenize e)

/-- Modelled from the spec: `semantic_similarity`; the spec leaves the exact
algorithm open ("any bounded, symmetric lexical similarity satisfying the
reflexive-maximum property", §9), rendered as token-set Jaccard similarity
(missing `calculate_semantic_similarity` of `evaluation.metrics`). -/
def calculate_semantic_similarity (g e : List Char) : ℚ :=
  jaccardTokens (tokenize g) (tokenize e)

/-- The token n-grams of a token list. -/
def ngrams (n : Nat) (l : List (List Char)) : List (List (List Char)) :=
  (List.range (l.length + 1 - n)).map (fun i => (l.drop i).take n)

/-- Clip-counted matches (`Counter` intersection size): each distinct element
of `a` counts at most as often as it occurs in `b`. -/
def clipSum {α : Type} [DecidableEq α] (a b : List α) : Nat :=
  (a.dedup.map (fun d => min (a.count d) (b.count d))).sum

/-- Clip-counted n-gram matches: each distinct generated n-gram counts at most
as often as it occurs in the reference. -/
def clippedCount (gg ge : List (List (List Char))) : Nat :=
  clipSum gg ge

/-- Modified n-gram precision of the generated tokens against the reference. -/
def ngramPrecision (n : Nat) (tg te : List (List Char)) : ℚ :=
  let gg := ngrams n tg
  if gg.length = 0 then 0
  else (clippedCount gg (ngrams n te) : ℚ) / (gg.length : ℚ)

/-- Modelled from the spec: `bleu_score`, BLEU over token n-grams up to n = 4
(missing `calculate_bleu_score` of `evaluation.metrics`).  To stay in exact
rational arithmetic the geometric mean of the n-gram precisions is rendered as
their arithmetic mean and the exponential brevity penalty as
`min 1 (candidate length / reference length)`; both renditions keep the score
in `[0, 1]` and keep the reflexive-maximum property the spec requires. -/
def calculate_bleu_score (g e : List Char) : ℚ :=
  let tg := tokenize g
  let te := tokenize e
  let orders := min 4 tg.length
  if orders = 0 then 0
  else
    let precs := (List.range orders).map (fun i => ngramPrecision (i + 1) tg te)
    min 1 ((tg.length : ℚ) / (te.length : ℚ)) * (precs.sum / (orders : ℚ))

/-- Clip-counted shared tokens (`Counter` intersection size). -/
def commonCount (tg te : List (List Char)) : Nat :=
  clipSum tg te

/-- Modelled from the spec: `f1_score`, harmonic mean of token-level precision
and recall (missing `calculate_f1_score` of `evaluation.metrics`); division by
zero yields 0 (`ℚ` division by zero is 0). -/
def calculate_f1_score (g e : List Char) : ℚ :=
  let tg := tokenize g
  let te := tokenize e
  let common := (commonCount tg te : ℚ)
  let p := common / (tg.length : ℚ)
  let r := common / (te.length : ℚ)
  if p + r = 0 then 0 else 2 * p * r / (p + r)

/-- The five per-pair similarity metrics. -/
structure ScorePair where
  exact_match : ℚ
  token_match : ℚ
  bleu_score : ℚ
  f1_score : ℚ
  semantic_similarity : ℚ

/-- Modelled from the spec: `score_pair` / missing `calculate_all_metrics` of
`evaluation.metrics`; an empty generated or expected string makes every
lexical metric 0.0 rather than raising (spec §4.4 edge case). -/
def calculate_all_metrics (g e : List Char) : ScorePair :=
  if g = [] ∨ e = [] then ⟨0, 0, 0, 0, 0⟩
  else
    ⟨calculate_exact_match g e, calculate_token_match g e,
     calculate_bleu_score g e, calculate_f1_score g e,
     calculate_semantic_similarity g e⟩

/-- A weight for each of the five metrics. -/
structure MetricWeights where
  exact_match : ℚ
  token_match : ℚ
  bleu_score : ℚ
  f1_score : ℚ
  semantic_similarity : ℚ

/-- Modelled from the spec: the fixed internal default weighting, summing to
1.0 across the five metrics (spec §4.4). -/
def DEFAULT_WEIGHTS : MetricWeights := ⟨1/5, 1/5, 1/5, 1/5, 1/5⟩

/-- Modelled from the spec: missing `calculate_composite_score` of
`evaluation.metrics`, the weighted sum of the five metrics. -/
def calculate_composite_score (m : ScorePair) (w : MetricWeights) : ℚ :=
  w.exact_match * m.exact_match + w.token_match * m.token_match
    + w.bleu_score * m.bleu_score + w.f1_score * m.f1_score
    + w.semantic_similarity * m.semantic_similarity

/-- Modelled from the spec: missing `calculate_sql_correctness` of
`evaluation.metrics` (1.0 if validated and executed, 0.5 if only validated,
else 0.0; the spec says only "a partial value" for the middle case). -/
def calculate_sql_correctness (execution_success is_valid : Bool) : ℚ :=
  if is_valid && execution_success then 1 else if is_valid then 1 / 2 else 0

/-! ## src/evaluation/run_eval.py -/

/-- One dataset test case (`id`, `question`, `expected_query`). -/
structure TestCase where
  id : Nat
  question : List Char
  expected_query : List Char

/-- One evaluation record of `run_evaluation`.  Fields that the
generation-failure record of the source does not carry are `Option`-valued and
`none` there.  `execution_attempted` instruments whether `execute_query` was
called.  The float rounding (`round(x, 3)` / `round(x, 4)`) and the wall-clock
timing fields of the source are not modelled. -/
structure EvalResult where
  test_id : Nat
  model : List Char
  question : List Char
  expected_query : List Char
  generated_query : Option (List Char)
  is_valid : Option Bool
  validation_msg : Option (List Char)
  execution_attempted : Bool
  execution_success : Bool
  error : Option (List Char)
  result_rows : Nat
  similarity_metrics : Option ScorePair
  sql_correctness_score : ℚ
  composite_score : ℚ

/-- The body of the per-test-case loop of `run_evaluation`
(`src/evaluation/run_eval.py`).  `infer` is the external generator port
(`llm_inference_fn`), `execDB` the external executor port (`execute_query`
with the shared cursor); either may raise, modelled by `Except`. -/
def evalCase (infer : List Char → Except (List Char) (List Char))
    (execDB : List Char → Except (List Char) Nat)
    (model_name : List Char) (calculate_metrics : Bool) (tc : TestCase) :
    EvalResult :=
  match infer tc.question with
  | .error e =>
    { test_id := tc.id, model := model_name, question := tc.question,
      expected_query := tc.expected_query, generated_query := none,
      is_valid := none, validation_msg := none, execution_attempted := false,
      execution_success := false,
      error := some (chars "Generation failed: " ++ e), result_rows := 0,
      similarity_metrics := none, sql_correctness_score := 0,
      composite_score := 0 }
  | .ok generated_query =>
    let v := validate_query generated_query false
    let execr : Bool × Option (List Char) × Nat × Bool :=
      if v.1 then
        match execDB generated_query with
        | .ok n => (true, none, n, true)
        | .error e => (false, some e, 0, true)
      else (false, none, 0, false)
    let sm : Option ScorePair :=
      if calculate_metrics && !tc.expected_query.isEmpty then
        some (calculate_all_metrics generated_query tc.expected_query)
      else none
    { test_id := tc.id, model := model_name, question := tc.question,
      expected_query := tc.expected_query,
      generated_query := some generated_query, is_valid := some v.1,
      validation_msg := some v.2, execution_attempted := execr.2.2.2,
      execution_success := execr.1, error := execr.2.1,
      result_rows := execr.2.2.1, similarity_metrics := sm,
      sql_correctness_score :=
        match sm with
        | some _ => calculate_sql_correctness execr.1 v.1
        | none => 0,
      composite_score :=
        match sm with
        | some m => calculate_composite_score m DEFAULT_WEIGHTS
        | none => 0 }

/-- `run_evaluation` of `src/evaluation/run_eval.py`: one result per test
case, in dataset order. -/
def run_evaluation (dataset : List TestCase)
    (infer : List Char → Except (List Char) (List Char))
    (execDB : List Char → Except (List Char) Nat)
    (model_name : List Char) (calculate_metrics : Bool) : List EvalResult :=
  dataset.map (evalCase infer execDB model_name calculate_metrics)

/-- A model summary as consumed by `_calculate_model_comparison`: the three
scores it reads with `summary.get(...)`, the republished similarity metrics,
and the `"error"` marker (`some` iff the key is present). -/
structure ModelSummary where
  composite_score : ℚ
  executed_pct : ℚ
  valid_queries_pct : ℚ
  similarity_metrics : List (List Char × ℚ)
  error : Option (List Char)

/-- The per-model slice republished in `comparison["metrics_by_model"]`. -/
structure MetricsSlice where
  composite_score : ℚ
  executed_pct : ℚ
  valid_queries_pct : ℚ
  similarity_metrics : List (List Char × ℚ)

def summarySlice (s : ModelSummary) : MetricsSlice :=
  ⟨s.composite_score, s.executed_pct, s.valid_queries_pct, s.similarity_metrics⟩

/-- One best-performer update of `_calculate_model_comparison`: replace the
tracked `(model, score)` only on a strictly greater score. -/
def bestStep (acc : Option (List Char) × ℚ) (name : List Char) (score : ℚ) :
    Option (List Char) × ℚ :=
  if acc.2 < score then (some name, score) else acc

/-- The loop of `_calculate_model_comparison`: skip summaries carrying an
error marker, collect the metrics slices in input order, and track the three
best performers. -/
def compGo :
    List (List Char × ModelSummary) →
    Option (List Char) × ℚ → Option (List Char) × ℚ → Option (List Char) × ℚ →
    List (List Char × MetricsSlice)
      × (Option (List Char) × ℚ) × (Option (List Char) × ℚ)
      × (Option (List Char) × ℚ)
  | [], bc, be, bv => ([], bc, be, bv)
  | (name, s) :: rest, bc, be, bv =>
    if s.error.isSome then compGo rest bc be bv
    else
      let r := compGo rest (bestStep bc name s.composite_score)
        (bestStep be name s.executed_pct) (bestStep bv name s.valid_queries_pct)
      ((name, summarySlice s) :: r.1, r.2)

/-- The output of `_calculate_model_comparison`. -/
structure Comparison where
  metrics_by_model : List (List Char × MetricsSlice)
  best_composite : Option (List Char) × ℚ
  best_execution : Option (List Char) × ℚ
  best_validity : Option (List Char) × ℚ

/-- `_calculate_model_comparison` of `src/evaluation/run_eval.py`; the input
mapping is an insertion-ordered association list, each best tracker starts at
`(None, -1)`. -/
def calcModelComparison (summaries : List (List Char × ModelSummary)) :
    Comparison :=
  let r := compGo summaries (none, -1) (none, -1) (none, -1)
  ⟨r.1, r.2.1, r.2.2.1, r.2.2.2⟩

/-- The left fold a single best-performer tracker performs over the scores of
the error-free summaries, in input order. -/
def bestGo (acc : Option (List Char) × ℚ) : List (List Char × ℚ) →
    Option (List Char) × ℚ
  | [] => acc
  | p :: rest => bestGo (bestStep acc p.1 p.2) rest

/-- The `(name, score)` candidates one criterion ranks: the error-free
summaries in input order, scored by `f`. -/
def candList (f : ModelSummary → ℚ) (l : List (List Char × ModelSummary)) :
    List (List Char × ℚ) :=
  (l.filter (fun p => p.2.error.isNone)).map (fun p => (p.1, f p.2))

/-- `b` names the first entry of `l` attaining the strictly greatest score:
the entries before it are strictly below, the ones after it at most equal. -/
def IsFirstMax (l : List (List Char × ℚ)) (b : Option (List Char) × ℚ) : Prop :=
  ∃ m l1 l2, l = l1 ++ (m, b.2) :: l2 ∧ b.1 = some m ∧
    (∀ p ∈ l1, p.2 < b.2) ∧ (∀ p ∈ l2, p.2 ≤ b.2)

/-! ## Theorems -/

theorem beginsWith_refl (l : List Char) : beginsWith l l = true := by
  induction l with
  | nil => rfl
  | cons c t ih => simp [beginsWith, ih]

theorem isSubstring_append_self (a pat : List Char) :
    isSubstring pat (a ++ pat) = true := by
  induction a with
  | nil =>
    cases pat with
    | nil => rfl
    | cons c t => simp [isSubstring, beginsWith_refl]
  | cons c t ih => simp [isSubstring, ih]

/-- C2: whenever `validate_query` with `allow_unsafe = false` reports a query
valid, the query, stripped and upper-cased, starts with `SELECT`, and none of
the eight deny-listed keywords occurs in the upper-cased query text. -/
theorem validate_query_select_only (q : List Char)
    (h : (validate_query q false).1 = true) :
    beginsWith (chars "SELECT") (upperChars (pyStrip q)) = true ∧
    ∀ kw ∈ DANGEROUS_KEYWORDS, isSubstring kw (upperChars q) = false := by
  unfold validate_query at h
  split_ifs at h with h1 h2 h3 h4
  have h3' : (check_dangerous_keywords q).1 = true := by simpa using h3
  refine ⟨by simpa [is_select_query] using h2, ?_⟩
  unfold check_dangerous_keywords at h3'
  rcases hf : DANGEROUS_KEYWORDS.find? (fun kw => isSubstring kw (upperChars q)) with _ | kw
  · intro kw hkw
    have := List.find?_eq_none.mp hf kw hkw
    simpa using this
  · rw [hf] at h3'
    simp at h3'

/-- C4: whenever splitting a query on `';'` leaves more than one non-empty
stripped statement, `check_query_safety` reports the query unsafe, regardless
of what the individual statements are. -/
theorem check_query_safety_multi_statement (q : List Char)
    (h : 1 < (((splitOn ';' q).map pyStrip).filter (fun s => s ≠ [])).length) :
    (check_query_safety q).1 = false := by
  unfold check_query_safety
  rcases hf : DISALLOWED_PATTERNS.find? (fun p => patMatch p q) with _ | p
  · have h' : 1 < (List.filter (fun s => !decide (s = []))
        (List.map pyStrip (splitOn ';' q))).length := by simpa using h
    simp [hf, h']
  · simp [hf]

theorem c4_witness :
    1 < (((splitOn ';' (chars "SELECT 1; SELECT 2")).map pyStrip).filter
      (fun s => s ≠ [])).length ∧
    (check_query_safety (chars "SELECT 1; SELECT 2")).1 = false :=
  ⟨by decide, check_query_safety_multi_statement _ (by decide)⟩

theorem c2_witness :
    (validate_query (chars "SELECT Name FROM Students WHERE Age > 18") false).1 = true ∧
    (beginsWith (chars "SELECT")
        (upperChars (pyStrip (chars "SELECT Name FROM Students WHERE Age > 18"))) = true ∧
      ∀ kw ∈ DANGEROUS_KEYWORDS,
        isSubstring kw (upperChars (chars "SELECT Name FROM Students WHERE Age > 18")) = false) :=
  ⟨by decide, validate_query_select_only _ (by decide)⟩

/-- C8 counterexample: the whitespace-only query `" "` is rejected, but with
the reason `"Only SELECT queries are supported"`, not a reason identifying the
query as empty, contrary to the claim. -/
theorem c8_counterexample :
    (∀ c ∈ chars " ", isPyWS c = true) ∧
    validate_query (chars " ") false
      = (false, chars "Only SELECT queries are supported") ∧
    chars "Only SELECT queries are supported" ≠ chars "Query is empty" := by
  refine ⟨by decide, by decide, by decide⟩

theorem dropWhile_eq_nil_of_all (p : Char → Bool) (l : List Char)
    (h : ∀ c ∈ l, p c = true) : l.dropWhile p = [] := by
  induction l with
  | nil => rfl
  | cons c t ih =>
    rw [List.dropWhile_cons, if_pos (h c (by simp))]
    exact ih fun d hd => h d (by simp [hd])

/-- C8 amended: an empty or whitespace-only query is always invalid; the
reason is `"Query is empty"` exactly when the query is the empty string, and
`"Only SELECT queries are supported"` for non-empty whitespace-only text
(which passes Python's `if not query` but fails the SELECT check). -/
theorem validate_query_blank (q : List Char) (h : ∀ c ∈ q, isPyWS c = true) :
    (validate_query q false).1 = false ∧
    (validate_query q false).2
      = (if q = [] then chars "Query is empty"
         else chars "Only SELECT queries are supported") := by
  cases hq : q with
  | nil => subst hq; decide
  | cons c t =>
    subst hq
    have hsel : is_select_query (c :: t) = false := by
      unfold is_select_query pyStrip
      rw [dropWhile_eq_nil_of_all _ _ h]
      rfl
    unfold validate_query
    rw [if_neg (by simp), hsel]
    simp

theorem c8_amended_witness :
    (∀ c ∈ chars " ", isPyWS c = true) ∧
    ((validate_query (chars " ") false).1 = false ∧
      (validate_query (chars " ") false).2
        = (if chars " " = [] then chars "Query is empty"
           else chars "Only SELECT queries are supported")) :=
  ⟨by decide, validate_query_blank _ (by decide)⟩

/-- C7 counterexample: `"SELECT 1 -- note"` contains a single-line `--`
comment, yet `check_query_safety` reports it safe — the pattern `--.*\n`
only matches when a newline follows the comment. -/
theorem c7_counterexample :
    isSubstring (chars "--") (chars "SELECT 1 -- note") = true ∧
    check_query_safety (chars "SELECT 1 -- note") = (true, none) := by
  refine ⟨by decide, by decide⟩

/-- C7 amended: if the guardrail's line-comment regex (a `--` later followed
by a newline) or block-comment regex (`/*` closed by `*/` on one line)
matches the query, `check_query_safety` reports it unsafe, and the reason
embeds (as a substring) the source text of the matched pattern. -/
theorem check_query_safety_comment_unsafe (q : List Char)
    (h : patMatch Pat.lineComment q = true ∨ patMatch Pat.blockComment q = true) :
    (check_query_safety q).1 = false ∧
    ∃ p ∈ DISALLOWED_PATTERNS, patMatch p q = true ∧
      (check_query_safety q).2
        = some (chars "Query contains disallowed pattern: " ++ patSource p) ∧
      isSubstring (patSource p) ((check_query_safety q).2.getD []) = true := by
  have hex : ∃ p ∈ DISALLOWED_PATTERNS, patMatch p q = true := by
    rcases h with h | h
    · exact ⟨Pat.lineComment, by decide, h⟩
    · exact ⟨Pat.blockComment, by decide, h⟩
  rcases hf : DISALLOWED_PATTERNS.find? (fun p => patMatch p q) with _ | p
  · rcases hex with ⟨p, hp, hm⟩
    have := List.find?_eq_none.mp hf p hp
    simp [hm] at this
  · have hmem := List.mem_of_find?_eq_some hf
    have hmatch : patMatch p q = true := by
      have := List.find?_some hf
      simpa using this
    refine ⟨?_, p, hmem, hmatch, ?_, ?_⟩
    · unfold check_query_safety
      rw [hf]
    · unfold check_query_safety
      rw [hf]
    · unfold check_query_safety
      rw [hf]
      exact isSubstring_append_self _ _

theorem c7_witness :
    (patMatch Pat.lineComment (chars "SELECT 1 -- note\n") = true ∨
      patMatch Pat.blockComment (chars "SELECT 1 -- note\n") = true) ∧
    ((check_query_safety (chars "SELECT 1 -- note\n")).1 = false ∧
      ∃ p ∈ DISALLOWED_PATTERNS, patMatch p (chars "SELECT 1 -- note\n") = true ∧
        (check_query_safety (chars "SELECT 1 -- note\n")).2
          = some (chars "Query contains disallowed pattern: " ++ patSource p) ∧
        isSubstring (patSource p)
          ((check_query_safety (chars "SELECT 1 -- note\n")).2.getD []) = true) :=
  ⟨Or.inl (by decide), check_query_safety_comment_unsafe _ (Or.inl (by decide))⟩

/-- C6 counterexample: `sanitize_query` is not idempotent — on
`"SELECT 1; "` one application yields `"SELECT 1;"` (the trailing-semicolon
strip runs before the whitespace strip) and a second yields `"SELECT 1"`. -/
theorem c6_counterexample :
    sanitize_query (sanitize_query (chars "SELECT 1; "))
      ≠ sanitize_query (chars "SELECT 1; ") := by decide

theorem removeLineCommentsF_eq_self (f : Nat) (q : List Char) (h : '-' ∉ q) :
    removeLineCommentsF f q = q := by
  induction f generalizing q with
  | zero => cases q <;> rfl
  | succ f ih =>
    cases q with
    | nil => rfl
    | cons c t =>
      have hc : ¬(c = '-' ∧ t.head? = some '-') := by
        rintro ⟨rfl, -⟩
        exact h (by simp)
      simp only [removeLineCommentsF, if_neg hc]
      rw [ih t fun ht => h (by simp [ht])]

theorem removeBlockCommentsF_eq_self (f : Nat) (q : List Char) (h : '*' ∉ q) :
    removeBlockCommentsF f q = q := by
  induction f generalizing q with
  | zero => cases q <;> rfl
  | succ f ih =>
    cases q with
    | nil => rfl
    | cons c t =>
      have hc : ¬(c = '/' ∧ t.head? = some '*') := by
        rintro ⟨-, hh⟩
        exact h (by simp [List.mem_of_mem_head? hh])
      simp only [removeBlockCommentsF, if_neg hc]
      rw [ih t fun ht => h (by simp [ht])]

theorem dropWhile_eq_self_of_all (p : Char → Bool) (l : List Char)
    (h : ∀ c ∈ l, p c = false) : l.dropWhile p = l := by
  cases l with
  | nil => rfl
  | cons c t => rw [List.dropWhile_cons, if_neg (by simp [h c (by simp)])]

theorem rstripSemis_eq_self (q : List Char) (h : ';' ∉ q) : rstripSemis q = q := by
  unfold rstripSemis
  rw [dropWhile_eq_self_of_all _ _ fun c hc => by
    simp only [beq_eq_false_iff_ne, ne_eq]
    rintro rfl
    exact h (by simpa using hc)]
  exact List.reverse_reverse q

theorem mem_pyStrip (q : List Char) (c : Char) (h : c ∈ pyStrip q) : c ∈ q := by
  unfold pyStrip dropEndWhile at h
  rw [List.mem_reverse] at h
  have h1 := List.Sublist.subset (List.dropWhile_sublist _) h
  rw [List.mem_reverse] at h1
  exact List.Sublist.subset (List.dropWhile_sublist _) h1

theorem dropWhile_self_idem (p : Char → Bool) (l : List Char) :
    (l.dropWhile p).dropWhile p = l.dropWhile p := by
  induction l with
  | nil => rfl
  | cons c t ih =>
    by_cases hp : p c = true
    · rw [List.dropWhile_cons, if_pos hp, ih]
    · rw [List.dropWhile_cons, if_neg hp, List.dropWhile_cons, if_neg hp]

theorem exists_append_dropWhile (p : Char → Bool) (l : List Char) :
    ∃ s, s ++ l.dropWhile p = l := by
  induction l with
  | nil => exact ⟨[], rfl⟩
  | cons c t ih =>
    by_cases hp : p c = true
    · rcases ih with ⟨s, hs⟩
      exact ⟨c :: s, by rw [List.dropWhile_cons, if_pos hp]; simp [hs]⟩
    · exact ⟨[], by rw [List.dropWhile_cons, if_neg hp]; rfl⟩

theorem head_not_p_of_dropWhile_eq_self (p : Char → Bool) (c : Char) (t : List Char)
    (h : (c :: t).dropWhile p = c :: t) : p c = false := by
  by_cases hp : p c = true
  · rw [List.dropWhile_cons, if_pos hp] at h
    have := List.Sublist.length_le (List.dropWhile_sublist p : (t.dropWhile p).Sublist t)
    rw [h] at this
    simp at this
  · simpa using hp

theorem dropEndWhile_self_idem (p : Char → Bool) (l : List Char) :
    dropEndWhile p (dropEndWhile p l) = dropEndWhile p l := by
  unfold dropEndWhile
  rw [List.reverse_reverse, dropWhile_self_idem]

theorem pyStrip_idem (q : List Char) : pyStrip (pyStrip q) = pyStrip q := by
  unfold pyStrip
  set p := isPyWS with hp
  set a := q.dropWhile p with ha
  have haa : a.dropWhile p = a := by rw [ha]; exact dropWhile_self_idem p q
  have hstep : (dropEndWhile p a).dropWhile p = dropEndWhile p a := by
    rcases hde : dropEndWhile p a with _ | ⟨c, t⟩
    · rfl
    · -- dropEndWhile p a is a prefix of a, so its head is the head of a
      have hpref : ∃ s, dropEndWhile p a ++ s = a := by
        rcases exists_append_dropWhile p a.reverse with ⟨s, hs⟩
        refine ⟨s.reverse, ?_⟩
        unfold dropEndWhile
        rw [← List.reverse_append, hs, List.reverse_reverse]
      rcases hpref with ⟨s, hs⟩
      rw [hde] at hs
      have hhead : a = c :: (t ++ s) := by rw [← hs]; simp
      have hpc : p c = false := by
        apply head_not_p_of_dropWhile_eq_self p c (t ++ s)
        rw [← hhead]
        exact haa
      rw [List.dropWhile_cons, if_neg (by simp [hpc])]
  rw [hstep, dropEndWhile_self_idem]

/-- C6 amended: `sanitize_query` is idempotent on every query that contains
no `'-'`, no `'*'` and no `';'` character: on such queries it reduces to the
final whitespace strip, which is idempotent. -/
theorem sanitize_query_idem_no_specials (q : List Char)
    (h1 : '-' ∉ q) (h2 : '*' ∉ q) (h3 : ';' ∉ q) :
    sanitize_query (sanitize_query q) = sanitize_query q := by
  have hs : ∀ r : List Char, '-' ∉ r → '*' ∉ r → ';' ∉ r →
      sanitize_query r = pyStrip r := by
    intro r hr1 hr2 hr3
    unfold sanitize_query removeLineComments removeBlockComments
    rw [removeLineCommentsF_eq_self _ _ hr1, removeBlockCommentsF_eq_self _ _ hr2,
      rstripSemis_eq_self _ hr3]
  rw [hs q h1 h2 h3]
  rw [hs (pyStrip q) (fun hc => h1 (mem_pyStrip _ _ hc))
    (fun hc => h2 (mem_pyStrip _ _ hc)) (fun hc => h3 (mem_pyStrip _ _ hc))]
  exact pyStrip_idem q

theorem c6_amended_witness :
    ('-' ∉ chars "SELECT 1" ∧ '*' ∉ chars "SELECT 1" ∧ ';' ∉ chars "SELECT 1") ∧
    sanitize_query (sanitize_query (chars "SELECT 1"))
      = sanitize_query (chars "SELECT 1") :=
  ⟨by decide, sanitize_query_idem_no_specials _ (by decide) (by decide) (by decide)⟩

theorem attemptGo_calls_le (gen : Nat → Except (List Char) (List Char × List Char)) :
    ∀ (rem attempt : Nat), (attemptGo gen attempt rem).2 ≤ rem := by
  intro rem
  induction rem with
  | zero => intro attempt; simp [attemptGo]
  | succ r ih =>
    intro attempt
    simp only [attemptGo]
    rcases gen attempt with e | pr
    · by_cases hr : r = 0
      · simp [hr]
      · simp only [if_neg hr]
        exact Nat.succ_le_succ (ih (attempt + 1))
    · dsimp only
      by_cases hv : (!(validate_query (clean_sql_from_response pr.2) false).1) = true
      · rw [if_pos hv]
        by_cases hr : r = 0
        · simp [hr]
        · simp only [if_neg hr]
          exact Nat.succ_le_succ (ih (attempt + 1))
      · rw [if_neg hv]
        by_cases hs : (!(check_query_safety (clean_sql_from_response pr.2)).1) = true
        · rw [if_pos hs]
          by_cases hr : r = 0
          · simp [hr]
          · simp only [if_neg hr]
            exact Nat.succ_le_succ (ih (attempt + 1))
        · rw [if_neg hs]
          simp

theorem attemptGo_success_safe (gen : Nat → Except (List Char) (List Char × List Char)) :
    ∀ (rem attempt : Nat), (attemptGo gen attempt rem).1.2.2 = true →
      (validate_query (attemptGo gen attempt rem).1.1 false).1 = true ∧
      (check_query_safety (attemptGo gen attempt rem).1.1).1 = true := by
  intro rem
  induction rem with
  | zero => intro attempt h; simp [attemptGo] at h
  | succ r ih =>
    intro attempt
    simp only [attemptGo]
    rcases gen attempt with e | pr
    · by_cases hr : r = 0
      · simp [hr]
      · simp only [if_neg hr]
        exact ih (attempt + 1)
    · dsimp only
      by_cases hv : (!(validate_query (clean_sql_from_response pr.2) false).1) = true
      · rw [if_pos hv]
        by_cases hr : r = 0
        · simp [hr]
        · simp only [if_neg hr]
          exact ih (attempt + 1)
      · rw [if_neg hv]
        by_cases hs : (!(check_query_safety (clean_sql_from_response pr.2)).1) = true
        · rw [if_pos hs]
          by_cases hr : r = 0
          · simp [hr]
          · simp only [if_neg hr]
            exact ih (attempt + 1)
        · rw [if_neg hs]
          intro _
          constructor
          · simpa using hv
          · simpa using hs

/-- C1: for every generator and every `max_retries = N ≥ 1`,
`attempt_sql_generation` calls the external generator at most `N` times, and
whenever it returns `success = true` the returned query passed both
`validate_query` and `check_query_safety`. -/
theorem attempt_sql_generation_bounded_and_safe
    (gen : Nat → Except (List Char) (List Char × List Char)) (N : Nat)
    (_h : 1 ≤ N) :
    (attempt_sql_generation gen N).2 ≤ N ∧
    ((attempt_sql_generation gen N).1.2.2 = true →
      (validate_query (attempt_sql_generation gen N).1.1 false).1 = true ∧
      (check_query_safety (attempt_sql_generation gen N).1.1).1 = true) :=
  ⟨attemptGo_calls_le gen N 1, attemptGo_success_safe gen N 1⟩

theorem c1_witness :
    1 ≤ 1 ∧
    ((attempt_sql_generation (fun _ => Except.ok (chars "p", chars "SELECT 1")) 1).2 ≤ 1 ∧
      ((attempt_sql_generation (fun _ => Except.ok (chars "p", chars "SELECT 1")) 1).1.2.2 = true →
        (validate_query (attempt_sql_generation
            (fun _ => Except.ok (chars "p", chars "SELECT 1")) 1).1.1 false).1 = true ∧
        (check_query_safety (attempt_sql_generation
            (fun _ => Except.ok (chars "p", chars "SELECT 1")) 1).1.1).1 = true)) :=
  ⟨by decide,
    attempt_sql_generation_bounded_and_safe (fun _ => Except.ok (chars "p", chars "SELECT 1")) 1
      (by decide)⟩

/-- C5: `run_evaluation` returns exactly one result record per test case
(`length` is preserved), and an exception raised by the inference function
for a test case is caught and recorded in that test case's `error` field as
`"Generation failed: ..."` without disturbing the remaining records. -/
theorem run_evaluation_total (dataset : List TestCase)
    (infer : List Char → Except (List Char) (List Char))
    (execDB : List Char → Except (List Char) Nat)
    (model_name : List Char) (calculate_metrics : Bool) :
    (run_evaluation dataset infer execDB model_name calculate_metrics).length
      = dataset.length ∧
    ∀ (i : Nat) (h : i < dataset.length)
      (h' : i < (run_evaluation dataset infer execDB model_name calculate_metrics).length)
      (e : List Char),
      infer (dataset.get ⟨i, h⟩).question = .error e →
      ((run_evaluation dataset infer execDB model_name calculate_metrics).get ⟨i, h'⟩).error
        = some (chars "Generation failed: " ++ e) := by
  constructor
  · simp [run_evaluation]
  · intro i h h' e he
    have hg : (run_evaluation dataset infer execDB model_name calculate_metrics).get ⟨i, h'⟩
        = evalCase infer execDB model_name calculate_metrics (dataset.get ⟨i, h⟩) := by
      simp [run_evaluation]
    rw [hg]
    unfold evalCase
    rw [he]

theorem c5_witness :
    (run_evaluation
        [⟨1, chars "qa", chars ""⟩, ⟨2, chars "qb", chars ""⟩]
        (fun q => if q = chars "qa" then .error (chars "boom") else .ok (chars "SELECT 1"))
        (fun _ => .ok 0) (chars "m") true).length
      = ([⟨1, chars "qa", chars ""⟩, ⟨2, chars "qb", chars ""⟩] : List TestCase).length ∧
    ((run_evaluation
        [⟨1, chars "qa", chars ""⟩, ⟨2, chars "qb", chars ""⟩]
        (fun q => if q = chars "qa" then .error (chars "boom") else .ok (chars "SELECT 1"))
        (fun _ => .ok 0) (chars "m") true).get ⟨0, by decide⟩).error
      = some (chars "Generation failed: " ++ chars "boom") := by
  refine ⟨(run_evaluation_total _ _ _ _ _).1, ?_⟩
  exact (run_evaluation_total _ _ _ _ _).2 0 (by decide) (by decide) (chars "boom") rfl

/-- C3 counterexample: `run_evaluation` does not run the orchestrator's
cleaning/guardrail pipeline — the guardrail rejects
`"SELECT a UNION SELECT b"` yet the evaluation runner executes it, and a
markdown-fenced response that `clean_sql_from_response` would repair is
judged invalid because the raw text is validated. -/
theorem c3_counterexample :
    (check_query_safety (chars "SELECT a UNION SELECT b")).1 = false ∧
    ((run_evaluation [⟨1, chars "list a with b", chars ""⟩]
        (fun _ => .ok (chars "SELECT a UNION SELECT b")) (fun _ => .ok 0)
        (chars "m") true).map
      (fun r => (r.execution_attempted, r.generated_query)))
      = [(true, some (chars "SELECT a UNION SELECT b"))] ∧
    ((run_evaluation [⟨1, chars "q2", chars ""⟩]
        (fun _ => .ok (chars "```sql\nSELECT 1\n```")) (fun _ => .ok 0)
        (chars "m") true).map (fun r => r.is_valid)) = [some false] ∧
    (validate_query (clean_sql_from_response (chars "```sql\nSELECT 1\n```")) false).1
      = true := by
  refine ⟨by decide, by decide, by decide, by decide⟩

/-- C3 amended: `run_evaluation` executes a test case's query against the
database if and only if the generator returned normally and `validate_query`
accepted its raw output — no markdown cleaning and no guardrail check are
applied. -/
theorem run_evaluation_executes_iff_valid (dataset : List TestCase)
    (infer : List Char → Except (List Char) (List Char))
    (execDB : List Char → Except (List Char) Nat)
    (model_name : List Char) (calculate_metrics : Bool) (i : Nat)
    (h : i < dataset.length)
    (h' : i < (run_evaluation dataset infer execDB model_name calculate_metrics).length) :
    ((run_evaluation dataset infer execDB model_name calculate_metrics).get ⟨i, h'⟩).execution_attempted = true
      ↔ ∃ gq, infer (dataset.get ⟨i, h⟩).question = .ok gq ∧
          (validate_query gq false).1 = true := by
  have hg : (run_evaluation dataset infer execDB model_name calculate_metrics).get ⟨i, h'⟩
      = evalCase infer execDB model_name calculate_metrics (dataset.get ⟨i, h⟩) := by
    simp [run_evaluation]
  rw [hg]
  unfold evalCase
  rcases hinf : infer (dataset.get ⟨i, h⟩).question with e | gq
  · simp
  · dsimp only
    by_cases hv : (validate_query gq false).1 = true
    · rw [if_pos hv]
      rcases execDB gq with e2 | n <;> simp [hv]
    · rw [if_neg hv]
      simp [hv]

theorem c3_amended_witness :
    ((run_evaluation [⟨1, chars "q", chars ""⟩]
        (fun _ => .ok (chars "SELECT a UNION SELECT b")) (fun _ => .ok 0)
        (chars "m") true).get ⟨0, by decide⟩).execution_attempted = true
      ↔ ∃ gq, (Except.ok (chars "SELECT a UNION SELECT b") : Except (List Char) (List Char))
            = .ok gq ∧ (validate_query gq false).1 = true :=
  run_evaluation_executes_iff_valid _ _ _ _ _ 0 (by decide) (by decide)

theorem bestGo_spec (l : List (List Char × ℚ)) :
    ∀ acc : Option (List Char) × ℚ,
      (bestGo acc l = acc ∧ ∀ p ∈ l, p.2 ≤ acc.2)
      ∨ (∃ m l1 l2, l = l1 ++ (m, (bestGo acc l).2) :: l2
          ∧ (bestGo acc l).1 = some m ∧ acc.2 < (bestGo acc l).2
          ∧ (∀ p ∈ l1, p.2 < (bestGo acc l).2)
          ∧ (∀ p ∈ l2, p.2 ≤ (bestGo acc l).2)) := by
  induction l with
  | nil => intro acc; exact Or.inl ⟨rfl, by simp⟩
  | cons p rest ih =>
    intro acc
    by_cases hlt : acc.2 < p.2
    · have hstep : bestGo acc (p :: rest) = bestGo (some p.1, p.2) rest := by
        simp [bestGo, bestStep, hlt]
      rw [hstep]
      rcases ih (some p.1, p.2) with ⟨heq, hb⟩ | ⟨m, l1, l2, hsplit, h1, h2, h3, h4⟩
      · right
        refine ⟨p.1, [], rest, ?_, ?_, ?_, ?_, ?_⟩
        · rw [heq]; simp
        · rw [heq]
        · rw [heq]; exact hlt
        · simp
        · intro q hq; rw [heq]; exact hb q hq
      · right
        refine ⟨m, p :: l1, l2, ?_, h1, lt_trans hlt h2, ?_, h4⟩
        · rw [List.cons_append, ← hsplit]
        · intro q hq
          rcases List.mem_cons.mp hq with rfl | hq
          · exact h2
          · exact h3 q hq
    · have hstep : bestGo acc (p :: rest) = bestGo acc rest := by
        simp [bestGo, bestStep, hlt]
      rw [hstep]
      rcases ih acc with ⟨heq, hb⟩ | ⟨m, l1, l2, hsplit, h1, h2, h3, h4⟩
      · left
        refine ⟨heq, ?_⟩
        intro q hq
        rcases List.mem_cons.mp hq with rfl | hq
        · exact le_of_not_lt hlt
        · exact hb q hq
      · right
        refine ⟨m, p :: l1, l2, ?_, h1, h2, ?_, h4⟩
        · rw [List.cons_append, ← hsplit]
        · intro q hq
          rcases List.mem_cons.mp hq with rfl | hq
          · exact lt_of_le_of_lt (le_of_not_lt hlt) h2
          · exact h3 q hq

theorem compGo_eq (l : List (List Char × ModelSummary)) :
    ∀ bc be bv, compGo l bc be bv
      = ((l.filter (fun p => p.2.error.isNone)).map (fun p => (p.1, summarySlice p.2)),
         bestGo bc (candList (fun s => s.composite_score) l),
         bestGo be (candList (fun s => s.executed_pct) l),
         bestGo bv (candList (fun s => s.valid_queries_pct) l)) := by
  induction l with
  | nil => intro bc be bv; rfl
  | cons p rest ih =>
    intro bc be bv
    rcases p with ⟨name, s⟩
    by_cases he : s.error.isSome
    · have hn : s.error.isNone = false := by
        rcases hs : s.error with _ | v
        · rw [hs] at he; simp at he
        · simp [hs]
      simp only [compGo, if_pos he, candList, List.filter_cons, hn]
      exact ih bc be bv
    · have hn : s.error.isNone = true := by
        rcases hs : s.error with _ | v
        · simp [hs]
        · rw [hs] at he; simp at he
      simp only [compGo, if_neg he, candList, List.filter_cons, hn, List.map_cons]
      rw [ih]
      rfl

/-- C10: `_calculate_model_comparison`, given nonnegative scores for the
error-free summaries, republishes exactly the error-free models (in input
order) in `metrics_by_model` — error-marked models are excluded while
remaining in the input mapping — and, for each of the three criteria, selects
the first-seen model attaining the strictly greatest score. -/
theorem calc_model_comparison_spec (summaries : List (List Char × ModelSummary))
    (hpos : ∀ p ∈ summaries, p.2.error = none →
      0 ≤ p.2.composite_score ∧ 0 ≤ p.2.executed_pct ∧ 0 ≤ p.2.valid_queries_pct)
    (hne : summaries.filter (fun p => p.2.error.isNone) ≠ []) :
    (calcModelComparison summaries).metrics_by_model.map Prod.fst
      = (summaries.filter (fun p => p.2.error.isNone)).map Prod.fst ∧
    IsFirstMax (candList (fun s => s.composite_score) summaries)
      (calcModelComparison summaries).best_composite ∧
    IsFirstMax (candList (fun s => s.executed_pct) summaries)
      (calcModelComparison summaries).best_execution ∧
    IsFirstMax (candList (fun s => s.valid_queries_pct) summaries)
      (calcModelComparison summaries).best_validity := by
  have hcand : ∀ (f : ModelSummary → ℚ), (∀ p ∈ summaries, p.2.error = none → 0 ≤ f p.2) →
      IsFirstMax (candList f summaries) (bestGo (none, -1) (candList f summaries)) := by
    intro f hf
    rcases bestGo_spec (candList f summaries) (none, -1) with ⟨heq, hb⟩ | hmax
    · exfalso
      have hcne : candList f summaries ≠ [] := by
        unfold candList
        simp only [ne_eq, List.map_eq_nil_iff]
        exact hne
      rcases List.exists_mem_of_ne_nil _ hcne with ⟨q, hq⟩
      have hle := hb q hq
      unfold candList at hq
      rcases List.mem_map.mp hq with ⟨p, hpf, hpq⟩
      have hps := List.mem_filter.mp hpf
      have herr : p.2.error = none := by
        have := hps.2
        simpa [Option.isNone_iff_eq_none] using this
      have h0 : (0 : ℚ) ≤ q.2 := by
        rw [← hpq]
        exact hf p hps.1 herr
      simp only at hle
      linarith
    · rcases hmax with ⟨m, l1, l2, hsplit, h1, h2, h3, h4⟩
      exact ⟨m, l1, l2, hsplit, h1, h3, h4⟩
  unfold calcModelComparison
  rw [compGo_eq]
  dsimp only
  refine ⟨?_, ?_, ?_, ?_⟩
  · rw [List.map_map]
    rfl
  · exact hcand _ fun p hp he => (hpos p hp he).1
  · exact hcand _ fun p hp he => (hpos p hp he).2.1
  · exact hcand _ fun p hp he => (hpos p hp he).2.2

theorem c10_witness :
    (∀ p ∈ ([(chars "a", ⟨1, 50, 50, [], none⟩),
             (chars "b", ⟨2, 90, 90, [], some (chars "x")⟩),
             (chars "c", ⟨1, 60, 40, [], none⟩)] :
        List (List Char × ModelSummary)), p.2.error = none →
      0 ≤ p.2.composite_score ∧ 0 ≤ p.2.executed_pct ∧ 0 ≤ p.2.valid_queries_pct) ∧
    (([(chars "a", ⟨1, 50, 50, [], none⟩),
       (chars "b", ⟨2, 90, 90, [], some (chars "x")⟩),
       (chars "c", ⟨1, 60, 40, [], none⟩)] :
        List (List Char × ModelSummary)).filter (fun p => p.2.error.isNone) ≠ []) ∧
    ((calcModelComparison [(chars "a", ⟨1, 50, 50, [], none⟩),
        (chars "b", ⟨2, 90, 90, [], some (chars "x")⟩),
        (chars "c", ⟨1, 60, 40, [], none⟩)]).metrics_by_model.map Prod.fst
      = (([(chars "a", ⟨1, 50, 50, [], none⟩),
           (chars "b", ⟨2, 90, 90, [], some (chars "x")⟩),
           (chars "c", ⟨1, 60, 40, [], none⟩)] :
          List (List Char × ModelSummary)).filter (fun p => p.2.error.isNone)).map Prod.fst ∧
      IsFirstMax (candList (fun s => s.composite_score)
          [(chars "a", ⟨1, 50, 50, [], none⟩),
           (chars "b", ⟨2, 90, 90, [], some (chars "x")⟩),
           (chars "c", ⟨1, 60, 40, [], none⟩)])
        (calcModelComparison [(chars "a", ⟨1, 50, 50, [], none⟩),
          (chars "b", ⟨2, 90, 90, [], some (chars "x")⟩),
          (chars "c", ⟨1, 60, 40, [], none⟩)]).best_composite ∧
      IsFirstMax (candList (fun s => s.executed_pct)
          [(chars "a", ⟨1, 50, 50, [], none⟩),
           (chars "b", ⟨2, 90, 90, [], some (chars "x")⟩),
           (chars "c", ⟨1, 60, 40, [], none⟩)])
        (calcModelComparison [(chars "a", ⟨1, 50, 50, [], none⟩),
          (chars "b", ⟨2, 90, 90, [], some (chars "x")⟩),
          (chars "c", ⟨1, 60, 40, [], none⟩)]).best_execution ∧
      IsFirstMax (candList (fun s => s.valid_queries_pct)
          [(chars "a", ⟨1, 50, 50, [], none⟩),
           (chars "b", ⟨2, 90, 90, [], some (chars "x")⟩),
           (chars "c", ⟨1, 60, 40, [], none⟩)])
        (calcModelComparison [(chars "a", ⟨1, 50, 50, [], none⟩),
          (chars "b", ⟨2, 90, 90, [], some (chars "x")⟩),
          (chars "c", ⟨1, 60, 40, [], none⟩)]).best_validity) := by
  refine ⟨?_, by simp, calc_model_comparison_spec _ ?_ (by simp)⟩ <;>
  · intro p hp he
    rcases List.mem_cons.mp hp with rfl | hp2
    · norm_num
    · rcases List.mem_cons.mp hp2 with rfl | hp3
      · simp at he
      · rcases List.mem_cons.mp hp3 with rfl | hp4
        · norm_num
        · simp at hp4

section ClipSum

variable {α : Type} [DecidableEq α]

theorem clipSum_self (a : List α) : clipSum a a = a.length := by
  unfold clipSum
  simp only [min_self]
  exact List.sum_map_count_dedup_eq_length a

theorem clipSum_le_left (a b : List α) : clipSum a b ≤ a.length := by
  unfold clipSum
  calc (a.dedup.map (fun d => min (a.count d) (b.count d))).sum
      ≤ (a.dedup.map (fun d => a.count d)).sum :=
        List.sum_le_sum fun d _ => min_le_left _ _
    _ = a.length := List.sum_map_count_dedup_eq_length a

theorem sum_ite_count_le_one (x : α) (l : List α) (hl : l.Nodup) :
    (l.map (fun d => if d = x then (1 : Nat) else 0)).sum ≤ 1 := by
  induction l with
  | nil => simp
  | cons c t ih =>
    rcases List.nodup_cons.mp hl with ⟨hc, ht⟩
    by_cases hcx : c = x
    · subst hcx
      have hz : (t.map (fun d => if d = c then (1 : Nat) else 0)).sum = 0 := by
        apply List.sum_eq_zero
        intro n hn
        rcases List.mem_map.mp hn with ⟨d, hd, hdn⟩
        have : d ≠ c := fun hdc => hc (hdc ▸ hd)
        simp [this] at hdn
        omega
      simp [hz]
    · simp only [List.map_cons, List.sum_cons, if_neg hcx, Nat.zero_add]
      exact ih ht

theorem sum_count_le_length (l b : List α) (hl : l.Nodup) :
    (l.map (fun d => b.count d)).sum ≤ b.length := by
  induction b with
  | nil => simp
  | cons x b' ih =>
    have hcc : ∀ d : α, (x :: b').count d = b'.count d + (if d = x then 1 else 0) := by
      intro d
      rw [List.count_cons]
      by_cases hdx : d = x
      · subst hdx; simp
      · simp [hdx, Ne.symm hdx]
    calc (l.map (fun d => (x :: b').count d)).sum
        = (l.map (fun d => b'.count d + if d = x then 1 else 0)).sum := by
          congr 1
          exact List.map_congr_left fun d _ => hcc d
      _ = (l.map (fun d => b'.count d)).sum
          + (l.map (fun d => if d = x then (1 : Nat) else 0)).sum := by
          rw [← List.sum_map_add]
      _ ≤ b'.length + 1 := Nat.add_le_add ih (sum_ite_count_le_one x l hl)
      _ = (x :: b').length := by simp

theorem clipSum_le_right (a b : List α) : clipSum a b ≤ b.length := by
  unfold clipSum
  calc (a.dedup.map (fun d => min (a.count d) (b.count d))).sum
      ≤ (a.dedup.map (fun d => b.count d)).sum :=
        List.sum_le_sum fun d _ => min_le_right _ _
    _ ≤ b.length := sum_count_le_length _ _ a.nodup_dedup

theorem clipSum_nil_right (a : List α) : clipSum a [] = 0 := by
  unfold clipSum
  apply List.sum_eq_zero
  intro n hn
  rcases List.mem_map.mp hn with ⟨d, _, hdn⟩
  simp at hdn
  omega

end ClipSum

theorem jaccardTokens_self (T : List (List Char)) (h : T ≠ []) :
    jaccardTokens T T = 1 := by
  unfold jaccardTokens
  rw [Finset.union_self, Finset.inter_self]
  have hne : T.toFinset.Nonempty := (List.toFinset_nonempty_iff T).mpr h
  have hc : T.toFinset.card ≠ 0 := by
    simpa [Finset.card_ne_zero] using hne
  rw [if_neg hc]
  rw [div_self (by exact_mod_cast hc)]

theorem jaccardTokens_nil_right (A : List (List Char)) :
    jaccardTokens A [] = 0 := by
  unfold jaccardTokens
  simp

theorem jaccardTokens_nonneg (A B : List (List Char)) : 0 ≤ jaccardTokens A B := by
  unfold jaccardTokens
  split_ifs
  · norm_num
  · positivity

theorem jaccardTokens_le_one (A B : List (List Char)) : jaccardTokens A B ≤ 1 := by
  unfold jaccardTokens
  split_ifs with h
  · norm_num
  · rw [div_le_one (by positivity)]
    exact_mod_cast Finset.card_le_card
      ((Finset.inter_subset_left).trans Finset.subset_union_left)

theorem ngrams_length (n : Nat) (l : List (List Char)) :
    (ngrams n l).length = l.length + 1 - n := by
  simp [ngrams]

theorem ngramPrecision_self (n : Nat) (T : List (List Char))
    (h2 : n ≤ T.length) : ngramPrecision n T T = 1 := by
  simp only [ngramPrecision, clippedCount]
  have hlen : (ngrams n T).length ≠ 0 := by rw [ngrams_length]; omega
  rw [if_neg hlen, clipSum_self]
  exact div_self (by exact_mod_cast hlen)

theorem ngramPrecision_nonneg (n : Nat) (tg te : List (List Char)) :
    0 ≤ ngramPrecision n tg te := by
  simp only [ngramPrecision, clippedCount]
  split_ifs
  · norm_num
  · positivity

theorem ngramPrecision_le_one (n : Nat) (tg te : List (List Char)) :
    ngramPrecision n tg te ≤ 1 := by
  simp only [ngramPrecision, clippedCount]
  split_ifs with h
  · norm_num
  · rw [div_le_one (by exact_mod_cast Nat.pos_of_ne_zero h)]
    exact_mod_cast clipSum_le_left _ _

theorem list_sum_eq_length_of_all_one (l : List ℚ) (h : ∀ x ∈ l, x = 1) :
    l.sum = l.length := by
  induction l with
  | nil => simp
  | cons c t ih =>
    simp only [List.sum_cons, List.length_cons, h c (by simp)]
    rw [ih fun x hx => h x (by simp [hx])]
    push_cast
    ring

theorem list_sum_le_length (l : List ℚ) (h : ∀ x ∈ l, x ≤ 1) :
    l.sum ≤ l.length := by
  have := List.sum_le_card_nsmul l 1 h
  simpa using this

theorem list_sum_nonneg (l : List ℚ) (h : ∀ x ∈ l, 0 ≤ x) : 0 ≤ l.sum := by
  induction l with
  | nil => simp
  | cons c t ih =>
    simp only [List.sum_cons]
    have := ih fun x hx => h x (by simp [hx])
    have hc := h c (by simp)
    linarith

theorem calculate_bleu_score_self (x : List Char) (h : tokenize x ≠ []) :
    calculate_bleu_score x x = 1 := by
  simp only [calculate_bleu_score]
  have hT : (tokenize x).length ≠ 0 := by
    simpa [List.length_eq_zero] using h
  have horders : ¬(min 4 (tokenize x).length = 0) := by omega
  rw [if_neg horders]
  have hprecs : ((List.range (min 4 (tokenize x).length)).map
      (fun i => ngramPrecision (i + 1) (tokenize x) (tokenize x))).sum
      = ((List.range (min 4 (tokenize x).length)).map
      (fun i => ngramPrecision (i + 1) (tokenize x) (tokenize x))).length := by
    apply list_sum_eq_length_of_all_one
    intro v hv
    rcases List.mem_map.mp hv with ⟨i, hi, rfl⟩
    have hir := List.mem_range.mp hi
    exact ngramPrecision_self _ _ (by omega)
  rw [hprecs]
  simp only [List.length_map, List.length_range]
  rw [div_self (by exact_mod_cast hT), min_self,
    div_self (by exact_mod_cast horders)]
  norm_num

theorem calculate_bleu_score_nonneg (g e : List Char) :
    0 ≤ calculate_bleu_score g e := by
  simp only [calculate_bleu_score]
  split_ifs
  · norm_num
  · apply mul_nonneg
    · exact le_min (by norm_num) (by positivity)
    · apply div_nonneg _ (by positivity)
      apply list_sum_nonneg
      intro v hv
      rcases List.mem_map.mp hv with ⟨i, _, rfl⟩
      exact ngramPrecision_nonneg _ _ _

theorem calculate_bleu_score_le_one (g e : List Char) :
    calculate_bleu_score g e ≤ 1 := by
  simp only [calculate_bleu_score]
  split_ifs with h
  · norm_num
  · apply mul_le_one₀ (min_le_left _ _)
    · apply div_nonneg _ (by positivity)
      apply list_sum_nonneg
      intro v hv
      rcases List.mem_map.mp hv with ⟨i, _, rfl⟩
      exact ngramPrecision_nonneg _ _ _
    · rw [div_le_one (by exact_mod_cast Nat.pos_of_ne_zero h)]
      calc ((List.range (min 4 (tokenize g).length)).map
            (fun i => ngramPrecision (i + 1) (tokenize g) (tokenize e))).sum
          ≤ (((List.range (min 4 (tokenize g).length)).map
            (fun i => ngramPrecision (i + 1) (tokenize g) (tokenize e))).length : ℚ) := by
            apply list_sum_le_length
            intro v hv
            rcases List.mem_map.mp hv with ⟨i, _, rfl⟩
            exact ngramPrecision_le_one _ _ _
        _ = ((min 4 (tokenize g).length : Nat) : ℚ) := by
            simp

theorem calculate_bleu_score_ref_nil (g e : List Char) (h : tokenize e = []) :
    calculate_bleu_score g e = 0 := by
  simp only [calculate_bleu_score, h]
  split_ifs
  · rfl
  · simp only [List.length_nil, Nat.cast_zero, div_zero]
    norm_num

theorem calculate_bleu_score_gen_nil (g e : List Char) (h : tokenize g = []) :
    calculate_bleu_score g e = 0 := by
  simp only [calculate_bleu_score, h]
  norm_num

theorem calculate_f1_score_self (x : List Char) (h : tokenize x ≠ []) :
    calculate_f1_score x x = 1 := by
  simp only [calculate_f1_score, commonCount]
  have hT : (tokenize x).length ≠ 0 := by
    simpa [List.length_eq_zero] using h
  rw [clipSum_self]
  rw [div_self (by exact_mod_cast hT)]
  norm_num

theorem calculate_f1_score_nonneg (g e : List Char) :
    0 ≤ calculate_f1_score g e := by
  simp only [calculate_f1_score, commonCount]
  split_ifs
  · norm_num
  · positivity

theorem calculate_f1_score_le_one (g e : List Char) :
    calculate_f1_score g e ≤ 1 := by
  simp only [calculate_f1_score, commonCount]
  have hp0 : (0:ℚ) ≤ (clipSum (tokenize g) (tokenize e) : ℚ) / ((tokenize g).length : ℚ) := by
    positivity
  have hr0 : (0:ℚ) ≤ (clipSum (tokenize g) (tokenize e) : ℚ) / ((tokenize e).length : ℚ) := by
    positivity
  have hp1 : (clipSum (tokenize g) (tokenize e) : ℚ) / ((tokenize g).length : ℚ) ≤ 1 := by
    rcases Nat.eq_zero_or_pos (tokenize g).length with hz | hpos
    · rw [hz]
      norm_num
    · rw [div_le_one (by exact_mod_cast hpos)]
      exact_mod_cast clipSum_le_left _ _
  have hr1 : (clipSum (tokenize g) (tokenize e) : ℚ) / ((tokenize e).length : ℚ) ≤ 1 := by
    rcases Nat.eq_zero_or_pos (tokenize e).length with hz | hpos
    · rw [hz]
      norm_num
    · rw [div_le_one (by exact_mod_cast hpos)]
      exact_mod_cast clipSum_le_right _ _
  split_ifs with hsum
  · norm_num
  · set p := (clipSum (tokenize g) (tokenize e) : ℚ) / ((tokenize g).length : ℚ) with hp
    set r := (clipSum (tokenize g) (tokenize e) : ℚ) / ((tokenize e).length : ℚ) with hr
    have hpr : 0 < p + r := lt_of_le_of_ne (by linarith) (Ne.symm hsum)
    rw [div_le_one hpr]
    nlinarith

theorem calculate_f1_score_ref_nil (g e : List Char) (h : tokenize e = []) :
    calculate_f1_score g e = 0 := by
  simp only [calculate_f1_score, commonCount, h]
  rw [clipSum_nil_right]
  norm_num

theorem calculate_exact_match_self (x : List Char) : calculate_exact_match x x = 1 := by
  simp [calculate_exact_match]

theorem calculate_exact_match_nonneg (g e : List Char) :
    0 ≤ calculate_exact_match g e := by
  unfold calculate_exact_match
  split_ifs <;> norm_num

theorem calculate_exact_match_le_one (g e : List Char) :
    calculate_exact_match g e ≤ 1 := by
  unfold calculate_exact_match
  split_ifs <;> norm_num

theorem composite_le_of_pointwise (m1 m2 : ScorePair)
    (h1 : m1.exact_match ≤ m2.exact_match) (h2 : m1.token_match ≤ m2.token_match)
    (h3 : m1.bleu_score ≤ m2.bleu_score) (h4 : m1.f1_score ≤ m2.f1_score)
    (h5 : m1.semantic_similarity ≤ m2.semantic_similarity) :
    calculate_composite_score m1 DEFAULT_WEIGHTS
      ≤ calculate_composite_score m2 DEFAULT_WEIGHTS := by
  unfold calculate_composite_score DEFAULT_WEIGHTS
  dsimp only
  nlinarith

theorem composite_nonneg (m : ScorePair) (h1 : 0 ≤ m.exact_match)
    (h2 : 0 ≤ m.token_match) (h3 : 0 ≤ m.bleu_score) (h4 : 0 ≤ m.f1_score)
    (h5 : 0 ≤ m.semantic_similarity) :
    0 ≤ calculate_composite_score m DEFAULT_WEIGHTS := by
  unfold calculate_composite_score DEFAULT_WEIGHTS
  dsimp only
  nlinarith

/-- C9 counterexample: for the empty string, the spec's edge rule (an empty
generated or expected string makes every lexical metric 0.0) forces
`score_pair("", "").exact_match = 0`, not `1.0` as the claim states for
every `x`. -/
theorem c9_counterexample :
    (calculate_all_metrics (chars "") (chars "")).exact_match = 0 ∧ (0 : ℚ) ≠ 1 :=
  ⟨rfl, by norm_num⟩

/-- C9 amended: for every non-empty `x`, `score_pair(x, x)` yields
`exact_match = 1`, the default-weight composite of `(y, x)` never exceeds the
composite of `(x, x)` for any `y`, and the composite of `(x, x)` equals `1`
whenever `x` has at least one token. -/
theorem calculate_all_metrics_reflexive_max (x y : List Char) (hx : x ≠ []) :
    (calculate_all_metrics x x).exact_match = 1 ∧
    calculate_composite_score (calculate_all_metrics y x) DEFAULT_WEIGHTS
      ≤ calculate_composite_score (calculate_all_metrics x x) DEFAULT_WEIGHTS ∧
    (tokenize x ≠ [] →
      calculate_composite_score (calculate_all_metrics x x) DEFAULT_WEIGHTS = 1) := by
  have hmx : calculate_all_metrics x x
      = ⟨calculate_exact_match x x, calculate_token_match x x,
         calculate_bleu_score x x, calculate_f1_score x x,
         calculate_semantic_similarity x x⟩ := by
    unfold calculate_all_metrics
    rw [if_neg]
    simp [hx]
  refine ⟨?_, ?_, ?_⟩
  · rw [hmx]
    exact calculate_exact_match_self x
  · by_cases hy : y = []
    · subst hy
      have hzy : calculate_all_metrics [] x = ⟨0, 0, 0, 0, 0⟩ := by
        unfold calculate_all_metrics
        rw [if_pos]
        exact Or.inl rfl
      rw [hzy, hmx]
      have h0 : calculate_composite_score ⟨0, 0, 0, 0, 0⟩ DEFAULT_WEIGHTS = 0 := by
        unfold calculate_composite_score DEFAULT_WEIGHTS
        norm_num
      rw [h0]
      apply composite_nonneg
      · exact calculate_exact_match_nonneg x x
      · exact jaccardTokens_nonneg _ _
      · exact calculate_bleu_score_nonneg x x
      · exact calculate_f1_score_nonneg x x
      · exact jaccardTokens_nonneg _ _
    · have hmy : calculate_all_metrics y x
          = ⟨calculate_exact_match y x, calculate_token_match y x,
             calculate_bleu_score y x, calculate_f1_score y x,
             calculate_semantic_similarity y x⟩ := by
        unfold calculate_all_metrics
        rw [if_neg]
        simp [hx, hy]
      rw [hmy, hmx]
      by_cases hT : tokenize x = []
      · apply composite_le_of_pointwise
        · calc calculate_exact_match y x ≤ 1 := calculate_exact_match_le_one y x
            _ = calculate_exact_match x x := (calculate_exact_match_self x).symm
        · show calculate_token_match y x ≤ calculate_token_match x x
          unfold calculate_token_match
          rw [hT, jaccardTokens_nil_right, jaccardTokens_nil_right]
        · show calculate_bleu_score y x ≤ calculate_bleu_score x x
          rw [calculate_bleu_score_ref_nil y x hT, calculate_bleu_score_ref_nil x x hT]
        · show calculate_f1_score y x ≤ calculate_f1_score x x
          rw [calculate_f1_score_ref_nil y x hT, calculate_f1_score_ref_nil x x hT]
        · show calculate_semantic_similarity y x ≤ calculate_semantic_similarity x x
          unfold calculate_semantic_similarity
          rw [hT, jaccardTokens_nil_right, jaccardTokens_nil_right]
      · apply composite_le_of_pointwise
        · calc calculate_exact_match y x ≤ 1 := calculate_exact_match_le_one y x
            _ = calculate_exact_match x x := (calculate_exact_match_self x).symm
        · show calculate_token_match y x ≤ calculate_token_match x x
          unfold calculate_token_match
          rw [jaccardTokens_self _ hT]
          exact jaccardTokens_le_one _ _
        · show calculate_bleu_score y x ≤ calculate_bleu_score x x
          rw [calculate_bleu_score_self x hT]
          exact calculate_bleu_score_le_one y x
        · show calculate_f1_score y x ≤ calculate_f1_score x x
          rw [calculate_f1_score_self x hT]
          exact calculate_f1_score_le_one y x
        · show calculate_semantic_similarity y x ≤ calculate_semantic_similarity x x
          unfold calculate_semantic_similarity
          rw [jaccardTokens_self _ hT]
          exact jaccardTokens_le_one _ _
  · intro hT
    rw [hmx]
    have he : calculate_exact_match x x = 1 := calculate_exact_match_self x
    have ht : calculate_token_match x x = 1 := by
      unfold calculate_token_match
      exact jaccardTokens_self _ hT
    have hb : calculate_bleu_score x x = 1 := calculate_bleu_score_self x hT
    have hf : calculate_f1_score x x = 1 := calculate_f1_score_self x hT
    have hs : calculate_semantic_similarity x x = 1 := by
      unfold calculate_semantic_similarity
      exact jaccardTokens_self _ hT
    unfold calculate_composite_score DEFAULT_WEIGHTS
    dsimp only
    rw [he, ht, hb, hf, hs]
    norm_num

theorem c9_witness :
    chars "SELECT 1" ≠ [] ∧
    ((calculate_all_metrics (chars "SELECT 1") (chars "SELECT 1")).exact_match = 1 ∧
      calculate_composite_score (calculate_all_metrics (chars "SELECT x")
          (chars "SELECT 1")) DEFAULT_WEIGHTS
        ≤ calculate_composite_score (calculate_all_metrics (chars "SELECT 1")
          (chars "SELECT 1")) DEFAULT_WEIGHTS ∧
      (tokenize (chars "SELECT 1") ≠ [] →
        calculate_composite_score (calculate_all_metrics (chars "SELECT 1")
          (chars "SELECT 1")) DEFAULT_WEIGHTS = 1)) :=
  ⟨by decide, calculate_all_metrics_reflexive_max (chars "SELECT 1") (chars "SELECT x")
    (by decide)⟩
